import Mathlib

/-!
Verification of the MatrixRGB terminal "digital rain" animation (Go
implementation, `main.go`) against its natural-language specification.

The Go program is shallowly embedded: machine `int`s become `Int` (Go `/`
and `%` on `int` are truncated division/remainder, embedded as `Int.tdiv`
and `Int.tmod`), the `math/rand` source is abstracted as an infinite
stream of naturals with `Intn n` taking the next stream value modulo `n`
(so its result ranges over exactly `[0, n)` for `n > 0`, matching the
uniform-sampling contract), and the side-effecting frame renderer
`drawColumnFrame` is embedded as a pure function returning the updated
column state, the list of emitted draw/trail/erase instructions, and the
advanced random source.  `buildRainbowTable` computes with `float64`
sine; it is embedded over the exact reals (`Real.sin`), with Go's
float-to-int conversion embedded as truncation toward zero.
-/

namespace MatrixRGB

/-- Model of the `math/rand` source: an infinite stream of naturals plus a
cursor.  Each call to `Intn` consumes one stream element. -/
structure RandGen where
  seq : Nat → Nat
  pos : Nat

/-- Model of Go `rand.Intn(n)`: the next stream value reduced mod `n`.
For `n > 0` the result ranges over exactly `[0, n)` as the stream value
ranges over the naturals. -/
def randIntn (g : RandGen) (n : Int) : Int × RandGen :=
  ((g.seq g.pos : Int) % n, ⟨g.seq, g.pos + 1⟩)

/-- Go constant `defaultSpeed = 5` (`main.go` line 17). -/
def defaultSpeed : Int := 5

/-- Go constant `defaultDensity = 80` (`main.go` line 18). -/
def defaultDensity : Int := 80

/-- Go constant `rainbowCycle = 63` (`main.go` line 20). -/
def rainbowCycle : Nat := 63

/-- Go `katakanaChars` (`main.go` lines 27-33): the 44 halfwidth katakana
runes used for the rain glyphs. -/
def katakanaChars : List Char :=
  ['ｱ', 'ｲ', 'ｳ', 'ｴ', 'ｵ', 'ｶ', 'ｷ', 'ｸ', 'ｹ', 'ｺ',
   'ｻ', 'ｼ', 'ｽ', 'ｾ', 'ｿ', 'ﾀ', 'ﾁ', 'ﾂ', 'ﾃ', 'ﾄ',
   'ﾅ', 'ﾆ', 'ﾇ', 'ﾈ', 'ﾉ', 'ﾊ', 'ﾋ', 'ﾌ', 'ﾍ', 'ﾎ',
   'ﾏ', 'ﾐ', 'ﾑ', 'ﾒ', 'ﾓ', 'ﾔ', 'ﾕ', 'ﾖ', 'ﾗ', 'ﾘ',
   'ﾘ', 'ﾜ', 'ﾞ', 'ﾟ']

/-- Go `type column struct` (`main.go` lines 35-42).  The zero rune that Go
uses for "no previous glyph" is `Char.ofNat 0`. -/
structure Column where
  active : Bool
  head : Int
  gap : Int
  length : Int
  colorOffset : Int
  lastChar : Char
deriving DecidableEq

/-- Go `type config struct` (`main.go` lines 51-54). -/
structure Config where
  speed : Int
  density : Int
deriving DecidableEq

/-- Go `calculateFrameDelay` (`main.go` lines 200-206), with the returned
`time.Duration` represented by its millisecond count:
`ms := 160 - speed*12; if ms < 20 { ms = 20 }`. -/
def calculateFrameDelay (speed : Int) : Int :=
  let ms := 160 - speed * 12
  if ms < 20 then 20 else ms

/-- Go `calculateColumnCount` (`main.go` lines 220-229):
`columns := width * density / 100` (Go `/` truncates toward zero), raised
to at least 1, then capped at `width`. -/
def calculateColumnCount (width density : Int) : Int :=
  let columns := (width * density).tdiv 100
  let columns := if columns < 1 then 1 else columns
  if columns > width then width else columns

/-- Go `rainbowColor` (`main.go` lines 290-299): an empty table yields
white; otherwise index by `position % len` (Go `%` is the truncated
remainder) with a negative result shifted forward by `len`. -/
def rainbowColor (table : List String) (position : Int) : String :=
  if table.length = 0 then "255;255;255"
  else
    let len : Int := table.length
    let index := position.tmod len
    let index := if index < 0 then index + len else index
    table.getD index.toNat ""

/-- One rendering instruction emitted by `drawColumnFrame`: a bold head
glyph, a dim trail glyph, or an erase (space) — each at (row, column) with
its color string where applicable (`main.go` lines 264, 270, 275). -/
inductive Instr where
  | draw (row col : Int) (color : String) (glyph : Char)
  | trail (row col : Int) (color : String) (glyph : Char)
  | erase (row col : Int)
deriving DecidableEq

/-- The body of Go `drawColumnFrame` from line 255 on (`main.go` lines
255-287), operating on the column state after the gap/activation prologue:
the head draw, the trail draw, the erase, the head advance, and the
falling-to-gap reset.  The statement order of the source is preserved,
including the order in which the random source is consumed. -/
def advanceColumn (idx : Int) (c0 : Column) (height : Int)
    (rainbowTable : List String) (g : RandGen) :
    Column × List Instr × RandGen :=
    let head := c0.head
    let length := c0.length
    let colorOffset := c0.colorOffset
    let prevChar := c0.lastChar
    let headStep : Column × List Instr × RandGen :=
      if 1 ≤ head ∧ head ≤ height then
        let pick := randIntn g (katakanaChars.length : Int)
        let ch := katakanaChars.getD pick.1.toNat ' '
        ({ c0 with lastChar := ch },
         [Instr.draw head (idx + 1) (rainbowColor rainbowTable (head + colorOffset)) ch],
         pick.2)
      else (c0, [], g)
    let c1 := headStep.1
    let g1 := headStep.2.2
    let trailInstr : List Instr :=
      if (1 ≤ head - 1 ∧ head - 1 ≤ height) ∧ prevChar ≠ Char.ofNat 0 then
        [Instr.trail (head - 1) (idx + 1)
          (rainbowColor rainbowTable (head - 1 + colorOffset)) prevChar]
      else []
    let eraseInstr : List Instr :=
      if 1 ≤ head - length ∧ head - length ≤ height then
        [Instr.erase (head - length) (idx + 1)]
      else []
    let instrs := headStep.2.1 ++ trailInstr ++ eraseInstr
    let c2 := { c1 with head := head + 1 }
    if height + length < head then
      let p1 := randIntn g1 10
      let p2 := randIntn p1.2 (height.tdiv 2 + 1)
      let p3 := randIntn p2.2 (rainbowTable.length : Int)
      ({ c2 with
          active := false
          head := 0
          gap := p1.1 + 5
          length := p2.1 + 3
          colorOffset := (colorOffset + p3.1).tmod (rainbowTable.length : Int)
          lastChar := Char.ofNat 0 },
       instrs, p3.2)
    else (c2, instrs, g1)

/-- Go `drawColumnFrame` (`main.go` lines 245-288), embedded as a pure
function from the incoming column state (plus the column index, terminal
height, rainbow table and random source) to the updated column state, the
emitted instruction list, and the advanced random source.  A waiting
column only counts down its gap; otherwise the (possibly just activated)
column is advanced by `advanceColumn`. -/
def drawColumnFrame (idx : Int) (col : Column) (height : Int)
    (rainbowTable : List String) (g : RandGen) :
    Column × List Instr × RandGen :=
  if col.active = false ∧ 0 < col.gap then
    ({ col with gap := col.gap - 1 }, [], g)
  else
    advanceColumn idx
      (if col.active then col else { col with active := true, head := 1 })
      height rainbowTable g

/-- The loop body of Go `initColumns` (`main.go` lines 237-241) for a
single column: Go's `make` zero-initializes every field, then `gap`,
`length` and `colorOffset` are sampled in that order. -/
def initColumn (height : Int) (rainbowLen : Int) (g : RandGen) :
    Column × RandGen :=
  let p1 := randIntn g 10
  let p2 := randIntn p1.2 (height.tdiv 2 + 1)
  let p3 := randIntn p2.2 rainbowLen
  ({ active := false
     head := 0
     gap := p1.1 + 5
     length := p2.1 + 3
     colorOffset := p3.1
     lastChar := Char.ofNat 0 }, p3.2)

/-- Recursion over the column count for `initColumns`. -/
def initColumnsAux : Nat → Int → Int → RandGen → List Column × RandGen
  | 0, _, _, g => ([], g)
  | n + 1, height, len, g =>
    let p := initColumn height len g
    let rest := initColumnsAux n height len p.2
    (p.1 :: rest.1, rest.2)

/-- Go `initColumns` (`main.go` lines 231-243): a zero `rainbowLen` is
replaced by 1, then `count` columns are created in order. -/
def initColumns (count : Nat) (height : Int) (rainbowLen : Int)
    (g : RandGen) : List Column × RandGen :=
  initColumnsAux count height (if rainbowLen = 0 then 1 else rainbowLen) g

/-- Accumulate a digit string left-to-right; `none` on the empty string or
any non-digit character (the digit-run part of `strconv.Atoi`). -/
def digitsVal (cs : List Char) : Option Nat :=
  if cs = [] then none
  else
    cs.foldl
      (fun acc c =>
        match acc with
        | none => none
        | some n => if c.isDigit then some (n * 10 + (c.toNat - 48)) else none)
      (some 0)

/-- Model of Go `strconv.Atoi`: an optional single sign followed by a
non-empty digit run.  (The `int64` overflow error of the library function
is not modelled: an overflowing numeric string parses here to its
mathematical value, which every caller in this program then rejects by its
range check, so both models produce an error for such inputs.) -/
def goAtoi (s : String) : Option Int :=
  match s.toList with
  | '-' :: rest => (digitsVal rest).map fun n => -(n : Int)
  | '+' :: rest => (digitsVal rest).map fun n => (n : Int)
  | l => (digitsVal l).map fun n => (n : Int)

/-- The argument loop of Go `parseArguments` (`main.go` lines 143-171),
parameterized by the configuration accumulated so far.  The returned
`Bool` is the `showHelp` flag; errors carry the `fmt.Errorf` message. -/
def parseArgsFrom : Config → List String → Except String (Config × Bool)
  | cfg, [] => .ok (cfg, false)
  | cfg, arg :: rest =>
    if arg = "-h" ∨ arg = "--help" then .ok (cfg, true)
    else if arg = "-s" ∨ arg = "--speed" then
      match rest with
      | [] => .error ("missing value for " ++ arg)
      | v :: rest2 =>
        match goAtoi v with
        | none => .error "speed must be an integer between 1 and 10"
        | some value =>
          if value < 1 ∨ value > 10 then
            .error "speed must be an integer between 1 and 10"
          else parseArgsFrom { cfg with speed := value } rest2
    else if arg = "-d" ∨ arg = "--density" then
      match rest with
      | [] => .error ("missing value for " ++ arg)
      | v :: rest2 =>
        match goAtoi v with
        | none => .error "density must be an integer between 1 and 100"
        | some value =>
          if value < 1 ∨ value > 100 then
            .error "density must be an integer between 1 and 100"
          else parseArgsFrom { cfg with density := value } rest2
    else .error ("invalid option: " ++ arg)

/-- Go `parseArguments` (`main.go` lines 137-174): start from the default
configuration and fold over the argument list. -/
def parseArguments (args : List String) : Except String (Config × Bool) :=
  parseArgsFrom ⟨defaultSpeed, defaultDensity⟩ args

/-- Go's `int(x)` conversion from `float64`, over the reals: truncation
toward zero. -/
noncomputable def goFloatToInt (x : ℝ) : ℤ :=
  if 0 ≤ x then ⌊x⌋ else -⌊-x⌋

/-- Go constant `rainbowFreq = 0.1` (`main.go` line 19), over the reals. -/
noncomputable def rainbowFreq : ℝ := 0.1

/-- One entry of Go `buildRainbowTable` (`main.go` lines 212-214), with
`float64` arithmetic embedded over the reals: the code computes
`int(math.Sin(freq*i)*127 + 128)` and phase shifts `twoPi/3` and
`2*twoPi/3`. -/
noncomputable def buildRainbowEntry (freq : ℝ) (i : ℕ) : ℤ × ℤ × ℤ :=
  (goFloatToInt (Real.sin (freq * i) * 127 + 128),
   goFloatToInt (Real.sin (freq * i + 2 * Real.pi / 3) * 127 + 128),
   goFloatToInt (Real.sin (freq * i + 2 * (2 * Real.pi) / 3) * 127 + 128))

/-- Go `buildRainbowTable` (`main.go` lines 208-218), with each `"r;g;b"`
string represented by its channel triple. -/
noncomputable def buildRainbowTable (freq : ℝ) (cycle : ℕ) : List (ℤ × ℤ × ℤ) :=
  (List.range cycle).map (buildRainbowEntry freq)

/-- The rows of the erase instructions in an instruction list. -/
def eraseRows : List Instr → List Int
  | [] => []
  | Instr.erase r _ :: rest => r :: eraseRows rest
  | Instr.draw _ _ _ _ :: rest => eraseRows rest
  | Instr.trail _ _ _ _ :: rest => eraseRows rest

end MatrixRGB

namespace MatrixRGB

/-! ### Helper lemmas -/

/-- The truncated remainder by a positive modulus is greater than the
negated modulus. -/
theorem neg_lt_tmod (a : Int) {b : Int} (hb : 0 < b) : -b < a.tmod b := by
  match a with
  | Int.ofNat m =>
    have h0 : (0 : Int) ≤ Int.ofNat m := Int.ofNat_nonneg m
    have := Int.tmod_nonneg b h0
    omega
  | Int.negSucc m =>
    match b, hb with
    | Int.ofNat (n + 1), _ =>
      have h1 : (m + 1) % (n + 1) < n + 1 := Nat.mod_lt _ (Nat.succ_pos n)
      have h2 : Int.tmod (Int.negSucc m) (Int.ofNat (n + 1)) =
          -(((m + 1) % (n + 1) : Nat) : Int) := rfl
      have h3 : (Int.ofNat (n + 1)) = ((n + 1 : Nat) : Int) := rfl
      rw [h2, h3]
      omega

/-- The `if index < 0 then index + len` fixup applied to the truncated
remainder computes the Euclidean remainder. -/
theorem tmodFixup_eq_emod (p c : Int) (hc : 0 < c) :
    (if p.tmod c < 0 then p.tmod c + c else p.tmod c) = p % c := by
  have h1 : p.tmod c < c := Int.tmod_lt_of_pos p hc
  have h2 : -c < p.tmod c := neg_lt_tmod p hc
  have h3 : p.tmod c + c * p.tdiv c = p := Int.tmod_add_tdiv p c
  by_cases hneg : p.tmod c < 0
  · rw [if_pos hneg]
    have hp : p = (p.tmod c + c) + c * (p.tdiv c - 1) := by ring_nf; omega
    have h4 : p % c = (p.tmod c + c + c * (p.tdiv c - 1)) % c := by rw [← hp]
    rw [h4, Int.add_mul_emod_self_left, Int.emod_eq_of_lt (by omega) (by omega)]
  · rw [if_neg hneg]
    have hp : p = p.tmod c + c * p.tdiv c := h3.symm
    have h4 : p % c = (p.tmod c + c * p.tdiv c) % c := by rw [← hp]
    rw [h4, Int.add_mul_emod_self_left, Int.emod_eq_of_lt (by omega) h1]

/-- Adding the modulus to a truncated remainder and reducing again (the
`((p % C) + C) % C` idiom with Go's truncated `%`) also computes the
Euclidean remainder. -/
theorem tmod_shift (p c : Int) (hc : 0 < c) :
    (p.tmod c + c).tmod c = p % c := by
  have h1 : p.tmod c < c := Int.tmod_lt_of_pos p hc
  have h2 : -c < p.tmod c := neg_lt_tmod p hc
  rw [Int.tmod_eq_emod (by omega) (by omega)]
  by_cases hneg : p.tmod c < 0
  · rw [Int.emod_eq_of_lt (by omega) (by omega),
      ← tmodFixup_eq_emod p c hc, if_pos hneg]
  · rw [Int.add_emod_self, Int.emod_eq_of_lt (by omega) h1,
      ← tmodFixup_eq_emod p c hc, if_neg hneg]

/-- `rainbowColor` on a non-empty table indexes by the Euclidean
remainder of the position. -/
theorem rainbowColor_eq_emod (table : List String) (p : Int)
    (h : table ≠ []) :
    rainbowColor table p
      = table.getD (p % (table.length : Int)).toNat "" := by
  have hC : 0 < (table.length : Int) := by
    have := List.length_pos.mpr h
    exact_mod_cast this
  have hne : ¬(table.length = 0) := by omega
  simp only [rainbowColor, hne, if_false, ite_false]
  rw [tmodFixup_eq_emod p _ hC]

/-- `eraseRows` distributes over append. -/
theorem eraseRows_append (xs ys : List Instr) :
    eraseRows (xs ++ ys) = eraseRows xs ++ eraseRows ys := by
  induction xs with
  | nil => rfl
  | cons x rest ih => cases x <;> simp [eraseRows, ih]

/-- The sample produced by `randIntn` with a positive bound lies in
`[0, n)`. -/
theorem randIntn_mem (g : RandGen) {n : Int} (hn : 0 < n) :
    0 ≤ (randIntn g n).1 ∧ (randIntn g n).1 < n :=
  ⟨Int.emod_nonneg _ (by omega), Int.emod_lt_of_pos _ hn⟩

/-- `eraseRows` pushed through an `if`. -/
theorem eraseRows_ite (P : Prop) [Decidable P] (a b : List Instr) :
    eraseRows (if P then a else b) = if P then eraseRows a else eraseRows b :=
  apply_ite eraseRows P a b

/-- State effect of the advance body: the head advances by one and
`active` is preserved, unless the pre-call head has passed
`height + length`, in which case the column resets to the gap state with
`head = 0`. -/
theorem advanceColumn_state (idx : Int) (c : Column) (height : Int)
    (tbl : List String) (g : RandGen) :
    (advanceColumn idx c height tbl g).1.active
      = (if height + c.length < c.head then false else c.active) ∧
    (advanceColumn idx c height tbl g).1.head
      = (if height + c.length < c.head then 0 else c.head + 1) := by
  by_cases hr : height + c.length < c.head
  · simp [advanceColumn, hr]
  · simp [advanceColumn, hr]
    split <;> rfl

/-- The gap sample `Intn 10 + 5` lies in `[5, 15)` for every random
source. -/
theorem gapSample_bounds (g1 : RandGen) :
    5 ≤ (randIntn g1 10).1 + 5 ∧ (randIntn g1 10).1 + 5 < 15 := by
  have := randIntn_mem g1 (show (0 : Int) < 10 by norm_num)
  omega

/-- The length sample `Intn m + 3` lies in `[3, m + 3)` for every random
source when `m > 0`. -/
theorem lengthSample_bounds (g1 : RandGen) {m : Int} (hm : 0 < m) :
    3 ≤ (randIntn g1 m).1 + 3 ∧ (randIntn g1 m).1 + 3 < m + 3 := by
  have := randIntn_mem g1 hm
  omega

/-- For a nonnegative height the length-sampling bound `height/2 + 1` is
positive (Go division truncates; for nonnegative operands it agrees with
Euclidean division). -/
theorem heightBound_pos {height : Int} (hh : 0 ≤ height) :
    0 < height.tdiv 2 + 1 := by
  rw [Int.tdiv_eq_ediv hh (by norm_num)]
  omega

/-- Gap and length samples produced at creation of a single column:
`gap ∈ [5, 15)` and `length ∈ [3, height/2 + 4)`. -/
theorem initColumn_sample_ranges (height rainbowLen : Int) (g : RandGen)
    (hh : 0 ≤ height) :
    5 ≤ (initColumn height rainbowLen g).1.gap ∧
    (initColumn height rainbowLen g).1.gap < 15 ∧
    3 ≤ (initColumn height rainbowLen g).1.length ∧
    (initColumn height rainbowLen g).1.length < height.tdiv 2 + 4 := by
  have hpos := heightBound_pos hh
  refine ⟨?_, ?_, ?_, ?_⟩
  · show 5 ≤ (randIntn g 10).1 + 5
    exact (gapSample_bounds g).1
  · show (randIntn g 10).1 + 5 < 15
    exact (gapSample_bounds g).2
  · show 3 ≤ (randIntn (randIntn g 10).2 (height.tdiv 2 + 1)).1 + 3
    exact (lengthSample_bounds _ hpos).1
  · show (randIntn (randIntn g 10).2 (height.tdiv 2 + 1)).1 + 3
      < height.tdiv 2 + 4
    exact lt_of_lt_of_le (lengthSample_bounds _ hpos).2 (by omega)

/-- Every column produced by the `initColumns` recursion is produced by
`initColumn` from some state of the random source. -/
theorem initColumnsAux_mem :
    ∀ (count : Nat) (height len : Int) (g : RandGen) (c : Column),
      c ∈ (initColumnsAux count height len g).1 →
      ∃ g', c = (initColumn height len g').1 := by
  intro count
  induction count with
  | zero =>
    intro h l g c hc
    simp [initColumnsAux] at hc
  | succ n ih =>
    intro h l g c hc
    simp only [initColumnsAux, List.mem_cons] at hc
    rcases hc with hc | hc
    · exact ⟨g, hc⟩
    · exact ih h l _ c hc

/-- In the falling-to-gap reset of the advance body, the new gap and
length are the samples `Intn 10 + 5` and `Intn (height/2 + 1) + 3` drawn
from some state of the random source. -/
theorem advanceColumn_reset_gapLength (idx : Int) (c : Column)
    (height : Int) (tbl : List String) (g : RandGen)
    (hr : height + c.length < c.head) :
    ∃ g1 : RandGen,
      (advanceColumn idx c height tbl g).1.gap = (randIntn g1 10).1 + 5 ∧
      (advanceColumn idx c height tbl g).1.length
        = (randIntn (randIntn g1 10).2 (height.tdiv 2 + 1)).1 + 3 := by
  by_cases hh1 : 1 ≤ c.head ∧ c.head ≤ height
  · exact ⟨(randIntn g (katakanaChars.length : Int)).2,
      by simp [advanceColumn, hr, hh1], by simp [advanceColumn, hr, hh1]⟩
  · exact ⟨g, by simp [advanceColumn, hr, hh1],
      by simp [advanceColumn, hr, hh1]⟩

/-- The erase instructions of the advance body are exactly the single
row `head - length` when that row is within `[1, height]`. -/
theorem advanceColumn_eraseRows (idx : Int) (c : Column) (height : Int)
    (tbl : List String) (g : RandGen) :
    eraseRows (advanceColumn idx c height tbl g).2.1
      = (if 1 ≤ c.head - c.length ∧ c.head - c.length ≤ height
         then [c.head - c.length] else []) := by
  by_cases hr : height + c.length < c.head <;>
    (simp [advanceColumn, hr, eraseRows_append, eraseRows_ite, eraseRows]
     split <;> simp [eraseRows])

end MatrixRGB

namespace MatrixRGB

/-! ### Claims -/

/-- C4 (amended): `calculateFrameDelay speed` equals
`max 20 (160 - speed*12)` milliseconds for every integer speed, is
monotonically non-increasing in speed, returns 148ms for speed 1, 40ms for
speed 10, 28ms for speed 11, and clamps to 20ms exactly for speed ≥ 12
(any value making the formula fall below 20). -/
theorem calculateFrameDelay_spec :
    (∀ s : Int, calculateFrameDelay s = max 20 (160 - s * 12)) ∧
    (∀ s t : Int, s ≤ t → calculateFrameDelay t ≤ calculateFrameDelay s) ∧
    calculateFrameDelay 1 = 148 ∧
    calculateFrameDelay 10 = 40 ∧
    calculateFrameDelay 11 = 28 ∧
    (∀ s : Int, 12 ≤ s → calculateFrameDelay s = 20) := by
  refine ⟨fun s => ?_, fun s t h => ?_, by decide, by decide, by decide,
    fun s h => ?_⟩
  · simp only [calculateFrameDelay]
    split <;> omega
  · simp only [calculateFrameDelay]
    split <;> split <;> omega
  · simp only [calculateFrameDelay]
    split <;> omega

/-- C4 witness: monotonicity applied at speeds 3 ≤ 10. -/
theorem calculateFrameDelay_spec_witness :
    calculateFrameDelay 10 ≤ calculateFrameDelay 3 :=
  calculateFrameDelay_spec.2.1 3 10 (by decide)

/-- C4 counterexample: the claim asserts that speed 11 clamps to 20ms, but
`calculateFrameDelay 11 = 160 - 132 = 28`. -/
theorem calculateFrameDelay_eleven_counterexample :
    calculateFrameDelay 11 = 28 ∧ calculateFrameDelay 11 ≠ 20 := by decide

/-- C7: `calculateColumnCount width density` equals
`clamp (width*density/100) 1 width` (truncated division) for all inputs,
`calculateColumnCount 80 80 = 64`, and for `width ≥ 1` the result always
lies in `[1, width]`. -/
theorem calculateColumnCount_spec :
    calculateColumnCount 80 80 = 64 ∧
    (∀ w d : Int, calculateColumnCount w d = min w (max 1 ((w * d).tdiv 100))) ∧
    (∀ w d : Int, 1 ≤ w →
      1 ≤ calculateColumnCount w d ∧ calculateColumnCount w d ≤ w) := by
  refine ⟨by decide, fun w d => ?_, fun w d hw => ?_⟩
  · simp only [calculateColumnCount]
    split <;> split <;> omega
  · simp only [calculateColumnCount]
    split <;> split <;> omega

/-- C7 witness: the range bound applied at width 80, density 80. -/
theorem calculateColumnCount_spec_witness :
    1 ≤ calculateColumnCount 80 80 ∧ calculateColumnCount 80 80 ≤ 80 :=
  calculateColumnCount_spec.2.2 80 80 (by decide)

/-- C1: for a falling column (`active = true`), one `drawColumnFrame` call
increments `head` by exactly 1 and keeps the column falling when the
pre-call head is at most `height + length`; when the pre-call head exceeds
`height + length`, the call resets `head` to 0 and returns the column to
the gap state. -/
theorem drawColumnFrame_head_advance (idx : Int) (col : Column)
    (height : Int) (tbl : List String) (g : RandGen)
    (hA : col.active = true) :
    (col.head ≤ height + col.length →
      (drawColumnFrame idx col height tbl g).1.head = col.head + 1 ∧
      (drawColumnFrame idx col height tbl g).1.active = true) ∧
    (height + col.length < col.head →
      (drawColumnFrame idx col height tbl g).1.head = 0 ∧
      (drawColumnFrame idx col height tbl g).1.active = false) := by
  have hd : drawColumnFrame idx col height tbl g
      = advanceColumn idx col height tbl g := by
    simp [drawColumnFrame, hA]
  have hs := advanceColumn_state idx col height tbl g
  rw [hd]
  constructor
  · intro h
    refine ⟨?_, ?_⟩
    · rw [hs.2, if_neg (by omega)]
    · rw [hs.1, if_neg (by omega)]
      exact hA
  · intro h
    exact ⟨by rw [hs.2, if_pos h], by rw [hs.1, if_pos h]⟩

/-- C1 witness: a falling column at head 3 with length 5 on a height-10
terminal advances to head 4 and stays falling. -/
theorem drawColumnFrame_head_advance_witness :
    (drawColumnFrame 0 ⟨true, 3, 0, 5, 0, Char.ofNat 0⟩ 10 ["1;2;3"]
      ⟨fun _ => 0, 0⟩).1.head = 3 + 1 ∧
    (drawColumnFrame 0 ⟨true, 3, 0, 5, 0, Char.ofNat 0⟩ 10 ["1;2;3"]
      ⟨fun _ => 0, 0⟩).1.active = true :=
  (drawColumnFrame_head_advance 0 ⟨true, 3, 0, 5, 0, Char.ofNat 0⟩ 10
    ["1;2;3"] ⟨fun _ => 0, 0⟩ rfl).1 (by decide)

/-- C2 (amended): a waiting column with `gapRemaining = 0` becomes falling
on the very next `drawColumnFrame` call; the transition sets `head = 1`
and the same call's advance step then leaves the post-call `head` at 2
(provided `1 ≤ height + length`, so the fresh head has not already passed
the reset bound). -/
theorem drawColumnFrame_activation (idx : Int) (col : Column)
    (height : Int) (tbl : List String) (g : RandGen)
    (h1 : col.active = false) (h2 : col.gap = 0)
    (h3 : 1 ≤ height + col.length) :
    (drawColumnFrame idx col height tbl g).1.active = true ∧
    (drawColumnFrame idx col height tbl g).1.head = 2 := by
  have hd : drawColumnFrame idx col height tbl g
      = advanceColumn idx { col with active := true, head := 1 }
          height tbl g := by
    simp [drawColumnFrame, h1, h2]
  have hs := advanceColumn_state idx { col with active := true, head := 1 }
    height tbl g
  rw [hd]
  constructor
  · rw [hs.1, if_neg (by simp; omega)]
  · rw [hs.2, if_neg (by simp; omega)]
    simp

/-- C2 witness: the amended transition applied to a concrete waiting
column with gap 0 and length 3 on a height-10 terminal. -/
theorem drawColumnFrame_activation_witness :
    (drawColumnFrame 0 ⟨false, 0, 0, 3, 0, Char.ofNat 0⟩ 10 ["1;2;3"]
      ⟨fun _ => 0, 0⟩).1.active = true ∧
    (drawColumnFrame 0 ⟨false, 0, 0, 3, 0, Char.ofNat 0⟩ 10 ["1;2;3"]
      ⟨fun _ => 0, 0⟩).1.head = 2 :=
  drawColumnFrame_activation 0 ⟨false, 0, 0, 3, 0, Char.ofNat 0⟩ 10
    ["1;2;3"] ⟨fun _ => 0, 0⟩ rfl rfl (by decide)

/-- C2 counterexample: a waiting column with `gapRemaining = 0` does
transition to falling, but the very same advance call then increments the
head, so the post-call state has `head = 2`, not `head = 1` as claimed. -/
theorem drawColumnFrame_activation_counterexample :
    (⟨false, 0, 0, 3, 0, Char.ofNat 0⟩ : Column).active = false ∧
    (⟨false, 0, 0, 3, 0, Char.ofNat 0⟩ : Column).gap = 0 ∧
    (drawColumnFrame 7 ⟨false, 0, 0, 3, 0, Char.ofNat 0⟩ 24 ["9;9;9"]
      ⟨fun _ => 1, 0⟩).1.head = 2 ∧
    (drawColumnFrame 7 ⟨false, 0, 0, 3, 0, Char.ofNat 0⟩ 24 ["9;9;9"]
      ⟨fun _ => 1, 0⟩).1.head ≠ 1 := by decide

/-- C10: a waiting column (`active = false`, `gapRemaining > 0`) has its
gap decremented by exactly 1 by `drawColumnFrame`, all other fields are
unchanged, no instruction is emitted, and the random source is not
consumed. -/
theorem drawColumnFrame_gapWait (idx : Int) (col : Column) (height : Int)
    (tbl : List String) (g : RandGen) (h1 : col.active = false)
    (h2 : 0 < col.gap) :
    (drawColumnFrame idx col height tbl g).1.gap = col.gap - 1 ∧
    (drawColumnFrame idx col height tbl g).1.active = col.active ∧
    (drawColumnFrame idx col height tbl g).1.head = col.head ∧
    (drawColumnFrame idx col height tbl g).1.length = col.length ∧
    (drawColumnFrame idx col height tbl g).1.colorOffset = col.colorOffset ∧
    (drawColumnFrame idx col height tbl g).1.lastChar = col.lastChar ∧
    (drawColumnFrame idx col height tbl g).2.1 = [] ∧
    (drawColumnFrame idx col height tbl g).2.2 = g := by
  have hd : drawColumnFrame idx col height tbl g
      = ({ col with gap := col.gap - 1 }, [], g) := by
    simp [drawColumnFrame, h1, h2]
  rw [hd]
  simp

/-- C10 witness: the gap countdown applied to a concrete waiting column
with gap 5. -/
theorem drawColumnFrame_gapWait_witness :
    (drawColumnFrame 0 ⟨false, 0, 5, 4, 2, Char.ofNat 0⟩ 10 ["1;2;3"]
      ⟨fun _ => 0, 0⟩).1.gap = 5 - 1 ∧
    (drawColumnFrame 0 ⟨false, 0, 5, 4, 2, Char.ofNat 0⟩ 10 ["1;2;3"]
      ⟨fun _ => 0, 0⟩).2.1 = [] :=
  ⟨(drawColumnFrame_gapWait 0 ⟨false, 0, 5, 4, 2, Char.ofNat 0⟩ 10
      ["1;2;3"] ⟨fun _ => 0, 0⟩ rfl (by decide)).1,
   (drawColumnFrame_gapWait 0 ⟨false, 0, 5, 4, 2, Char.ofNat 0⟩ 10
      ["1;2;3"] ⟨fun _ => 0, 0⟩ rfl (by decide)).2.2.2.2.2.2.1⟩

/-- A sine channel value `y*127 + 128` with `y ∈ [-1, 1]`: Go's
float-to-int conversion is the floor (the value is positive), and the
floor lies in `[1, 255]`. -/
theorem sineChannel_floor_bounds (y : ℝ) (h1 : -1 ≤ y) (h2 : y ≤ 1) :
    goFloatToInt (y * 127 + 128) = ⌊y * 127 + 128⌋ ∧
    1 ≤ ⌊y * 127 + 128⌋ ∧ ⌊y * 127 + 128⌋ ≤ 255 := by
  have hv1 : (1 : ℝ) ≤ y * 127 + 128 := by nlinarith
  have hv2 : y * 127 + 128 ≤ 255 := by nlinarith
  refine ⟨?_, ?_, ?_⟩
  · unfold goFloatToInt
    rw [if_pos (by linarith)]
  · exact Int.le_floor.mpr (by exact_mod_cast hv1)
  · have h3 : (⌊y * 127 + 128⌋ : ℝ) ≤ 255 := le_trans (Int.floor_le _) hv2
    exact_mod_cast h3

/-- C8: in every `drawColumnFrame` call the emitted erase rows are exactly
the single row `head - length` (with `head` the value used by the advance
body, i.e. 1 for a freshly activated column) when that row lies in
`[1, height]`, and nothing otherwise; in particular no erase instruction
is ever emitted for a row below 1 or above `height`. -/
theorem drawColumnFrame_erase (idx : Int) (col : Column) (height : Int)
    (tbl : List String) (g : RandGen) :
    eraseRows (drawColumnFrame idx col height tbl g).2.1
      = (if col.active = false ∧ 0 < col.gap then []
         else if 1 ≤ (if col.active then col.head else 1) - col.length ∧
              (if col.active then col.head else 1) - col.length ≤ height
         then [(if col.active then col.head else 1) - col.length]
         else []) ∧
    (∀ r ∈ eraseRows (drawColumnFrame idx col height tbl g).2.1,
      1 ≤ r ∧ r ≤ height) := by
  have main : eraseRows (drawColumnFrame idx col height tbl g).2.1
      = (if col.active = false ∧ 0 < col.gap then []
         else if 1 ≤ (if col.active then col.head else 1) - col.length ∧
              (if col.active then col.head else 1) - col.length ≤ height
         then [(if col.active then col.head else 1) - col.length]
         else []) := by
    cases hA : col.active with
    | true =>
      have hd : drawColumnFrame idx col height tbl g
          = advanceColumn idx col height tbl g := by
        simp [drawColumnFrame, hA]
      rw [hd, advanceColumn_eraseRows]
      simp [hA]
    | false =>
      by_cases hg : 0 < col.gap
      · simp [drawColumnFrame, hA, hg, eraseRows]
      · have hd : drawColumnFrame idx col height tbl g
            = advanceColumn idx { col with active := true, head := 1 }
                height tbl g := by
          simp [drawColumnFrame, hA, hg]
        rw [hd, advanceColumn_eraseRows]
        simp [hA, hg]
  refine ⟨main, fun r hr => ?_⟩
  rw [main] at hr
  by_cases hw : col.active = false ∧ 0 < col.gap
  · simp [hw] at hr
  · rw [if_neg hw] at hr
    cases hA : col.active with
    | true =>
      simp [hA] at hr
      omega
    | false =>
      simp [hA] at hr
      omega

/-- C8 witness: a falling column at head 5 with length 3 on a height-10
terminal emits an erase for row 2, which is within bounds. -/
theorem drawColumnFrame_erase_witness :
    1 ≤ (2 : Int) ∧ (2 : Int) ≤ 10 :=
  (drawColumnFrame_erase 0 ⟨true, 5, 0, 3, 0, Char.ofNat 0⟩ 10 ["1;2;3"]
    ⟨fun _ => 0, 0⟩).2 2 (by decide)

/-- C6: for every non-empty table of length `C` and every integer
position `p` (including negative `p`), `rainbowColor table p` equals the
entry at index `((p % C) + C) % C` (Go's truncated `%`), and the color
sequence is periodic with period `C`: `rainbowColor table p` equals
`rainbowColor table (p + C)`, with negative positions wrapping forward. -/
theorem rainbowColor_spec (table : List String) (p : Int)
    (h : table ≠ []) :
    rainbowColor table p
      = table.getD ((p.tmod (table.length : Int)
          + (table.length : Int)).tmod (table.length : Int)).toNat "" ∧
    rainbowColor table p
      = rainbowColor table (p + (table.length : Int)) := by
  have hC : 0 < (table.length : Int) := by
    have := List.length_pos.mpr h
    exact_mod_cast this
  constructor
  · rw [rainbowColor_eq_emod table p h, tmod_shift p _ hC]
  · rw [rainbowColor_eq_emod table p h,
      rainbowColor_eq_emod table (p + (table.length : Int)) h]
    rw [Int.add_emod_self]

/-- C6 witness: indexing a three-entry table at position -1 wraps forward
to the last entry and agrees with position 2 = -1 + 3. -/
theorem rainbowColor_spec_witness :
    rainbowColor ["a;a;a", "b;b;b", "c;c;c"] (-1)
      = (["a;a;a", "b;b;b", "c;c;c"] : List String).getD
          ((((-1 : Int).tmod ((["a;a;a", "b;b;b", "c;c;c"] :
              List String).length : Int))
            + ((["a;a;a", "b;b;b", "c;c;c"] : List String).length : Int)).tmod
              ((["a;a;a", "b;b;b", "c;c;c"] : List String).length : Int)).toNat
          "" ∧
    rainbowColor ["a;a;a", "b;b;b", "c;c;c"] (-1)
      = rainbowColor ["a;a;a", "b;b;b", "c;c;c"]
          (-1 + ((["a;a;a", "b;b;b", "c;c;c"] : List String).length : Int)) :=
  rainbowColor_spec ["a;a;a", "b;b;b", "c;c;c"] (-1) (by decide)

/-- C3 (amended): for every nonnegative height, whenever a column's
parameters are (re)sampled — at creation by `initColumns` and on the
falling-to-gap reset in `drawColumnFrame` — the sampled gap countdown lies
in `[5, 15)` and the sampled length lies in `[3, height/2 + 4)` (that is,
up to and including `height/2 + 3`), for every possible value of the
random source. -/
theorem sampling_ranges (height : Int) (hh : 0 ≤ height) :
    (∀ (rainbowLen : Int) (g : RandGen),
      5 ≤ (initColumn height rainbowLen g).1.gap ∧
      (initColumn height rainbowLen g).1.gap < 15 ∧
      3 ≤ (initColumn height rainbowLen g).1.length ∧
      (initColumn height rainbowLen g).1.length < height.tdiv 2 + 4) ∧
    (∀ (count : Nat) (rainbowLen : Int) (g : RandGen),
      ∀ c ∈ (initColumns count height rainbowLen g).1,
        5 ≤ c.gap ∧ c.gap < 15 ∧
        3 ≤ c.length ∧ c.length < height.tdiv 2 + 4) ∧
    (∀ (idx : Int) (col : Column) (tbl : List String) (g : RandGen),
      col.active = true → height + col.length < col.head →
        5 ≤ (drawColumnFrame idx col height tbl g).1.gap ∧
        (drawColumnFrame idx col height tbl g).1.gap < 15 ∧
        3 ≤ (drawColumnFrame idx col height tbl g).1.length ∧
        (drawColumnFrame idx col height tbl g).1.length
          < height.tdiv 2 + 4) := by
  refine ⟨fun rainbowLen g => initColumn_sample_ranges height rainbowLen g hh,
    fun count rainbowLen g c hc => ?_, fun idx col tbl g hA hr => ?_⟩
  · obtain ⟨g', hg'⟩ := initColumnsAux_mem count height _ g c hc
    rw [hg']
    exact initColumn_sample_ranges height _ g' hh
  · have hd : drawColumnFrame idx col height tbl g
        = advanceColumn idx col height tbl g := by
      simp [drawColumnFrame, hA]
    rw [hd]
    obtain ⟨g1, hgap, hlen⟩ :=
      advanceColumn_reset_gapLength idx col height tbl g hr
    rw [hgap, hlen]
    have hpos := heightBound_pos hh
    refine ⟨(gapSample_bounds g1).1, (gapSample_bounds g1).2,
      (lengthSample_bounds _ hpos).1,
      lt_of_lt_of_le (lengthSample_bounds _ hpos).2 (by omega)⟩

/-- C3 witness: the creation-time ranges applied to a concrete column on a
height-10 terminal with a concrete random source. -/
theorem sampling_ranges_witness :
    5 ≤ (initColumn 10 63 ⟨fun _ => 0, 0⟩).1.gap ∧
    (initColumn 10 63 ⟨fun _ => 0, 0⟩).1.gap < 15 ∧
    3 ≤ (initColumn 10 63 ⟨fun _ => 0, 0⟩).1.length ∧
    (initColumn 10 63 ⟨fun _ => 0, 0⟩).1.length < (10 : Int).tdiv 2 + 4 :=
  (sampling_ranges 10 (by decide)).1 63 ⟨fun _ => 0, 0⟩

/-- C9: argument validation: the empty argument list yields the default
configuration (speed 5, density 80); at any point of the scan, a
`-s`/`--speed` flag whose value is non-integer or outside 1..10 makes the
parse return an error, as does a `-d`/`--density` flag whose value is
non-integer or outside 1..100; in-range integer values are accepted and
the scan continues with the updated configuration. -/
theorem parseArguments_spec :
    (parseArguments [] = Except.ok (⟨5, 80⟩, false)) ∧
    (∀ (cfg : Config) (f v : String) (rest : List String),
      f = "-s" ∨ f = "--speed" →
      (goAtoi v = none →
        parseArgsFrom cfg (f :: v :: rest)
          = Except.error "speed must be an integer between 1 and 10") ∧
      (∀ n : Int, goAtoi v = some n → (n < 1 ∨ 10 < n) →
        parseArgsFrom cfg (f :: v :: rest)
          = Except.error "speed must be an integer between 1 and 10") ∧
      (∀ n : Int, goAtoi v = some n → 1 ≤ n → n ≤ 10 →
        parseArgsFrom cfg (f :: v :: rest)
          = parseArgsFrom { cfg with speed := n } rest)) ∧
    (∀ (cfg : Config) (f v : String) (rest : List String),
      f = "-d" ∨ f = "--density" →
      (goAtoi v = none →
        parseArgsFrom cfg (f :: v :: rest)
          = Except.error "density must be an integer between 1 and 100") ∧
      (∀ n : Int, goAtoi v = some n → (n < 1 ∨ 100 < n) →
        parseArgsFrom cfg (f :: v :: rest)
          = Except.error "density must be an integer between 1 and 100") ∧
      (∀ n : Int, goAtoi v = some n → 1 ≤ n → n ≤ 100 →
        parseArgsFrom cfg (f :: v :: rest)
          = parseArgsFrom { cfg with density := n } rest)) := by
  refine ⟨rfl, ?_, ?_⟩
  · intro cfg f v rest hf
    refine ⟨?_, ?_, ?_⟩
    · intro hv
      rcases hf with hf | hf <;> subst hf <;> simp [parseArgsFrom, hv]
    · intro n hv hn
      rcases hf with hf | hf <;> subst hf <;>
        rcases hn with h | h <;> simp [parseArgsFrom, hv, h]
    · intro n hv h1 h10
      have hcond : ¬(n < 1 ∨ n > 10) := by omega
      rcases hf with hf | hf <;> subst hf <;>
        simp [parseArgsFrom, hv, hcond]
  · intro cfg f v rest hf
    refine ⟨?_, ?_, ?_⟩
    · intro hv
      rcases hf with hf | hf <;> subst hf <;> simp [parseArgsFrom, hv]
    · intro n hv hn
      rcases hf with hf | hf <;> subst hf <;>
        rcases hn with h | h <;> simp [parseArgsFrom, hv, h]
    · intro n hv h1 h100
      have hcond : ¬(n < 1 ∨ n > 100) := by omega
      rcases hf with hf | hf <;> subst hf <;>
        simp [parseArgsFrom, hv, hcond]

/-- C9 witness: a non-integer speed value is rejected with the speed
validation error. -/
theorem parseArguments_spec_witness :
    parseArgsFrom ⟨5, 80⟩ ["-s", "abc"]
      = Except.error "speed must be an integer between 1 and 10" :=
  (parseArguments_spec.2.1 ⟨5, 80⟩ "-s" "abc" [] (Or.inl rfl)).1 (by decide)

/-- C3 counterexample: with height 10 the code's length sample
`Intn (height/2 + 1) + 3` can reach `height/2 + 3 = 8` (random value 5),
which is outside the claimed half-open interval `[3, height/2 + 3)`. -/
theorem initColumns_length_counterexample :
    ((initColumns 1 10 63 ⟨fun _ => 5, 0⟩).1.getD 0
      ⟨false, 0, 0, 0, 0, Char.ofNat 0⟩).length = 8 ∧
    ¬(((initColumns 1 10 63 ⟨fun _ => 5, 0⟩).1.getD 0
      ⟨false, 0, 0, 0, 0, Char.ofNat 0⟩).length < (10 : Int).tdiv 2 + 3) := by
  decide

/-- C5 (amended): for every frequency and every index `i < cycle`, the
rainbow table entry built by `buildRainbowTable` has channels that are the
truncation (equivalently the floor, as each value is at least 1) of
`sin(f·i)*127 + 128`, `sin(f·i + 2π/3)*127 + 128` and
`sin(f·i + 4π/3)*127 + 128` respectively, and every channel lies in
`[1, 255]`. -/
theorem buildRainbowTable_entries (freq : ℝ) (cycle i : ℕ)
    (hi : i < cycle) :
    (buildRainbowTable freq cycle)[i]? = some (buildRainbowEntry freq i) ∧
    (buildRainbowEntry freq i).1 = ⌊Real.sin (freq * i) * 127 + 128⌋ ∧
    1 ≤ (buildRainbowEntry freq i).1 ∧
    (buildRainbowEntry freq i).1 ≤ 255 ∧
    (buildRainbowEntry freq i).2.1
      = ⌊Real.sin (freq * i + 2 * Real.pi / 3) * 127 + 128⌋ ∧
    1 ≤ (buildRainbowEntry freq i).2.1 ∧
    (buildRainbowEntry freq i).2.1 ≤ 255 ∧
    (buildRainbowEntry freq i).2.2
      = ⌊Real.sin (freq * i + 2 * (2 * Real.pi) / 3) * 127 + 128⌋ ∧
    1 ≤ (buildRainbowEntry freq i).2.2 ∧
    (buildRainbowEntry freq i).2.2 ≤ 255 := by
  have hR := sineChannel_floor_bounds (Real.sin (freq * i))
    (Real.neg_one_le_sin _) (Real.sin_le_one _)
  have hG := sineChannel_floor_bounds (Real.sin (freq * i + 2 * Real.pi / 3))
    (Real.neg_one_le_sin _) (Real.sin_le_one _)
  have hB := sineChannel_floor_bounds
    (Real.sin (freq * i + 2 * (2 * Real.pi) / 3))
    (Real.neg_one_le_sin _) (Real.sin_le_one _)
  refine ⟨?_, ?_, ?_, ?_, ?_, ?_, ?_, ?_, ?_, ?_⟩
  · simp [buildRainbowTable, List.getElem?_map, List.getElem?_range, hi]
  · exact hR.1
  · rw [show (buildRainbowEntry freq i).1
      = goFloatToInt (Real.sin (freq * i) * 127 + 128) from rfl, hR.1]
    exact hR.2.1
  · rw [show (buildRainbowEntry freq i).1
      = goFloatToInt (Real.sin (freq * i) * 127 + 128) from rfl, hR.1]
    exact hR.2.2
  · exact hG.1
  · rw [show (buildRainbowEntry freq i).2.1
      = goFloatToInt (Real.sin (freq * i + 2 * Real.pi / 3) * 127 + 128)
      from rfl, hG.1]
    exact hG.2.1
  · rw [show (buildRainbowEntry freq i).2.1
      = goFloatToInt (Real.sin (freq * i + 2 * Real.pi / 3) * 127 + 128)
      from rfl, hG.1]
    exact hG.2.2
  · exact hB.1
  · rw [show (buildRainbowEntry freq i).2.2
      = goFloatToInt (Real.sin (freq * i + 2 * (2 * Real.pi) / 3) * 127 + 128)
      from rfl, hB.1]
    exact hB.2.1
  · rw [show (buildRainbowEntry freq i).2.2
      = goFloatToInt (Real.sin (freq * i + 2 * (2 * Real.pi) / 3) * 127 + 128)
      from rfl, hB.1]
    exact hB.2.2

/-- C5 witness: the amended entry description applied at frequency 0,
cycle 1, index 0. -/
theorem buildRainbowTable_entries_witness :
    (buildRainbowTable 0 1)[0]? = some (buildRainbowEntry 0 0) ∧
    (buildRainbowEntry 0 0).1 = ⌊Real.sin (0 * (0 : ℕ)) * 127 + 128⌋ ∧
    1 ≤ (buildRainbowEntry 0 0).1 ∧
    (buildRainbowEntry 0 0).1 ≤ 255 ∧
    (buildRainbowEntry 0 0).2.1
      = ⌊Real.sin (0 * (0 : ℕ) + 2 * Real.pi / 3) * 127 + 128⌋ ∧
    1 ≤ (buildRainbowEntry 0 0).2.1 ∧
    (buildRainbowEntry 0 0).2.1 ≤ 255 ∧
    (buildRainbowEntry 0 0).2.2
      = ⌊Real.sin (0 * (0 : ℕ) + 2 * (2 * Real.pi) / 3) * 127 + 128⌋ ∧
    1 ≤ (buildRainbowEntry 0 0).2.2 ∧
    (buildRainbowEntry 0 0).2.2 ≤ 255 :=
  buildRainbowTable_entries 0 1 0 (by decide)

/-- C5 counterexample: at the program's frequency 0.1 and index 1 the
real channel value is `sin(0.1)*127 + 128 ∈ (140.66, 140.7)`, so the
code's truncation yields 140 while rounding to nearest (as the claim
states) yields 141. -/
theorem buildRainbowTable_round_counterexample :
    (buildRainbowEntry rainbowFreq 1).1 = 140 ∧
    round (Real.sin (rainbowFreq * (1 : ℕ)) * 127 + 128) = 141 ∧
    (buildRainbowEntry rainbowFreq 1).1
      ≠ round (Real.sin (rainbowFreq * (1 : ℕ)) * 127 + 128) := by
  have hfreq : rainbowFreq * ((1 : ℕ) : ℝ) = 1 / 10 := by
    norm_num [rainbowFreq]
  have hs1 : Real.sin (1 / 10) < 1 / 10 := Real.sin_lt (by norm_num)
  have hs2 : (1 : ℝ) / 10 - (1 / 10) ^ 3 / 4 < Real.sin (1 / 10) :=
    Real.sin_gt_sub_cube (by norm_num) (by norm_num)
  have hv1 : (140 : ℝ) ≤ Real.sin (1 / 10) * 127 + 128 := by nlinarith
  have hv2 : Real.sin (1 / 10) * 127 + 128 < 141 := by nlinarith
  have hfl : ⌊Real.sin (1 / 10) * 127 + 128⌋ = 140 :=
    Int.floor_eq_iff.mpr ⟨by push_cast; linarith, by push_cast; linarith⟩
  have hrd : round (Real.sin (1 / 10) * 127 + 128) = 141 := by
    rw [round_eq]
    exact Int.floor_eq_iff.mpr ⟨by push_cast; linarith, by push_cast; linarith⟩
  have hch : (buildRainbowEntry rainbowFreq 1).1
      = goFloatToInt (Real.sin (rainbowFreq * (1 : ℕ)) * 127 + 128) := rfl
  have htr : goFloatToInt (Real.sin (1 / 10) * 127 + 128)
      = ⌊Real.sin (1 / 10) * 127 + 128⌋ := by
    unfold goFloatToInt
    rw [if_pos (by linarith)]
  refine ⟨?_, ?_, ?_⟩
  · rw [hch, hfreq, htr, hfl]
  · rw [hfreq, hrd]
  · rw [hch, hfreq, htr, hfl, hrd]
    decide

end MatrixRGB
